import Mathlib

/-!
Shallow embedding of the thorc template engine (catalog search, name
validation, repository-archive caching and extraction), with theorems about
its specified behaviour.

Rust machine values are modelled as follows: `String` stays `String`
(character operations go through `String.data`), byte buffers are `List Nat`,
`Option`/`Result` are `Option`/`Except`, and the filesystem/network effects of
the caching layer are explicit state passing over an association-list
filesystem plus an injected network function.
-/

namespace Thorc

/-! ## Strings: substring containment (Rust `str::contains`) -/

/-- Predicate `hasPre sub s` iff the character list `sub` is a prefix of `s`;
models the prefix comparison underlying Rust substring search. -/
def hasPre : List Char → List Char → Bool
  | [], _ => true
  | _ :: _, [] => false
  | a :: as, b :: bs => a == b && hasPre as bs

/-- Predicate `hasSub sub s` iff `sub` occurs contiguously inside `s`. -/
def hasSub (sub : List Char) : List Char → Bool
  | [] => hasPre sub []
  | b :: bs => hasPre sub (b :: bs) || hasSub sub bs

/-- Rust `s.contains(term)`: substring containment of `term` in `s`. -/
def strContains (s term : String) : Bool :=
  hasSub term.data s.data

/-! ## repo_def.rs: GitProvider and RepoDef -/

/-- Source `GitProvider` from src/repo_def.rs. -/
inductive GitProvider where
  | GitHub
  | GitLab
deriving DecidableEq, Repr

/-- Source `GitProvider::simple_name`. -/
def GitProvider.simple_name : GitProvider → String
  | .GitHub => "github"
  | .GitLab => "gitlab"

/-- Source `RepoDef` from src/repo_def.rs. -/
structure RepoDef where
  git_provider : GitProvider
  user : String
  repo : String
  git_ref : String
deriving DecidableEq, Repr

/-- Source `RepoDef::cache_file`: `format!("{}_{}_{}_{}", provider, user, repo, ref)`. -/
def RepoDef.cache_file (r : RepoDef) : String :=
  r.git_provider.simple_name ++ "_" ++ r.user ++ "_" ++ r.repo ++ "_" ++ r.git_ref

/-- Source `RepoDef::archive_link`: the provider-specific archive download URL. -/
def RepoDef.archive_link (r : RepoDef) : String :=
  match r.git_provider with
  | .GitHub =>
      "https://github.com/" ++ r.user ++ "/" ++ r.repo ++ "/archive/" ++
        r.git_ref ++ ".tar.gz"
  | .GitLab =>
      "https://gitlab.com/api/v4/projects/" ++ r.user ++ "%2F" ++ r.repo ++
        "/repository/archive.tar.gz?sha=" ++ r.git_ref

/-! ## template.rs: Template, SetupKind, check_template_name -/

/-- Source `SetupKind` from src/template.rs. -/
inductive SetupKind where
  | rust
  | npm
deriving DecidableEq, Repr

/-- Source `Template` from src/template.rs: repository-backed or local-path-backed.
`PathBuf` is modelled as `String`. -/
inductive Template where
  | repo (name : String) (description : Option String) (repoDef : RepoDef)
      (issue : Option Nat) (setup : Option SetupKind)
  | local (name : String) (description : Option String) (path : String)
deriving DecidableEq, Repr

/-- Source `Template::name`. -/
def Template.name : Template → String
  | .repo n _ _ _ _ => n
  | .local n _ _ => n

/-- Source `Template::description`. -/
def Template.description : Template → Option String
  | .repo _ d _ _ _ => d
  | .local _ d _ => d

/-- Source `CheckTemplateNameError` from src/error.rs. -/
inductive CheckTemplateNameError where
  | invalidCharacter (c : Char) (index : Nat)
deriving DecidableEq, Repr

/-- The per-character test of `check_template_name` (src/template.rs lines
131-136): a character is rejected iff it is outside `a..=z`, `A..=Z`,
`0..=9` and `"-_"`. -/
def badChar (c : Char) : Bool :=
  !('a' ≤ c && c ≤ 'z') && !('A' ≤ c && c ≤ 'Z') &&
    !('0' ≤ c && c ≤ '9') && !(c == '-' || c == '_')

/-- Source `name.chars().enumerate().find(..)`: first character satisfying
`badChar`, with its index, starting the count at `i`. -/
def firstBad : List Char → Nat → Option (Nat × Char)
  | [], _ => none
  | c :: cs, i => if badChar c then some (i, c) else firstBad cs (i + 1)

/-- Source `check_template_name` from src/template.rs. -/
def check_template_name (name : String) : Except CheckTemplateNameError Unit :=
  match firstBad name.data 0 with
  | some (i, c) => .error (.invalidCharacter c i)
  | none => .ok ()

/-! ## index.rs: TemplateIndex and find -/

/-- Source `FindResult` from src/find_result.rs (owned copies stand in for the
borrowed references). -/
structure FindResult where
  name_and_description : List Template
  name_only : List Template
  description_only : List Template
deriving DecidableEq, Repr

/-- Source `TemplateIndex` from src/index.rs; the `BTreeSet<Template>` is modelled
as the list of its elements in iteration order (ascending by name, since
`Template`'s `Ord` compares names only). -/
structure TemplateIndex where
  for_remote : Bool
  templates : List Template
deriving DecidableEq, Repr

/-- Source `let n = t.name().contains(term)` in `TemplateIndex::find`
(src/index.rs line 21). -/
def nameMatch (t : Template) (term : String) : Bool :=
  strContains t.name term

/-- Source `let desc = t.description().map_or(false, |d| d.contains(term))` in
`TemplateIndex::find` (src/index.rs line 22). -/
def descMatch (t : Template) (term : String) : Bool :=
  match t.description with
  | some d => strContains d term
  | none => false

/-- The classifying closure inside `TemplateIndex::find` (src/index.rs lines
20-32): maps a template to the `(Option, (Option, Option))` triple that the
source later unzips into the three buckets. -/
def findTriple (term : String) (t : Template) :
    Option Template × (Option Template × Option Template) :=
  let n := nameMatch t term
  let desc := descMatch t term
  if n && desc then (some t, (none, none))
  else if n then (none, (some t, none))
  else if desc then (none, (none, some t))
  else (none, (none, none))

/-- Source `TemplateIndex::find` from src/index.rs: map to option triples, unzip,
then `filter_map(idnt)` each bucket. -/
def TemplateIndex.find (idx : TemplateIndex) (term : String) : FindResult :=
  let triples := idx.templates.map (findTriple term)
  { name_and_description := (triples.map Prod.fst).filterMap id
    name_only := (triples.map (fun p => p.2.1)).filterMap id
    description_only := (triples.map (fun p => p.2.2)).filterMap id }

/-- Source `TemplateIndex::find_exact` from src/index.rs. -/
def TemplateIndex.find_exact (idx : TemplateIndex) (name : String) :
    Option Template :=
  idx.templates.find? (fun it => it.name == name)

/-! ## find_result.rs: composition and merge -/

/-- Source `FindResultComposite` from src/find_result.rs: each hit tagged with its
source catalog's label. -/
structure FindResultComposite where
  name_and_description : List (String × Template)
  name_only : List (String × Template)
  description_only : List (String × Template)
deriving DecidableEq, Repr

/-- Source `FindResult::compose`: tag every hit in each bucket with `label`. -/
def FindResult.compose (r : FindResult) (label : String) : FindResultComposite :=
  { name_and_description := r.name_and_description.map (fun it => (label, it))
    name_only := r.name_only.map (fun it => (label, it))
    description_only := r.description_only.map (fun it => (label, it)) }

/-- Source `FindResultComposite::merge_ref`/`merge`: bucket-wise `Vec::extend`,
i.e. append `other`'s hits after `self`'s. -/
def FindResultComposite.merge (a other : FindResultComposite) :
    FindResultComposite :=
  { name_and_description := a.name_and_description ++ other.name_and_description
    name_only := a.name_only ++ other.name_only
    description_only := a.description_only ++ other.description_only }

/-- The search aggregation of `Subcommand::Find` (src/main.rs lines 337-355):
compose the local catalog's result under the label `"<local>"`, then fold each
already-fetched remote catalog's composed result in configured order. -/
def findAll (localIdx : TemplateIndex) (remotes : List (String × TemplateIndex))
    (term : String) : FindResultComposite :=
  remotes.foldl (fun acc p => acc.merge ((p.2.find term).compose p.1))
    ((localIdx.find term).compose "<local>")

/-! ## The caching layer: filesystem state, conditional fetch, download -/

/-- A regular file in the cache directory: its bytes and its last
modification time (seconds). -/
structure FileRec where
  bytes : List Nat
  mtime : Nat
deriving DecidableEq, Repr

/-- One entry of an extracted tree: a file, or a directory with its child
entries in directory-listing order. -/
inductive Entry where
  | file (name : String) (content : List Nat)
  | dir (name : String) (children : List Entry)

/-- The name of an entry (`DirEntry::file_name`). -/
def Entry.name : Entry → String
  | .file n _ => n
  | .dir n _ => n

/-- The cache directory's state: regular files (the `.tar.gz` artifacts),
revalidation-token files (`.etag`, whose content is a string), and extracted
directories (name of the directory, with its top-level entries), each keyed
by file name relative to the cache root. -/
structure CacheFS where
  files : List (String × FileRec)
  toks : List (String × String)
  dirs : List (String × List Entry)

/-- Source `path.exists()` / `fs::read` for a regular file. -/
def CacheFS.fileAt (fs : CacheFS) (p : String) : Option FileRec :=
  (fs.files.find? (fun kv => kv.1 == p)).map Prod.snd

/-- Source `etag_f.exists()` / `fs::read_to_string` for a token file. -/
def CacheFS.tokAt (fs : CacheFS) (p : String) : Option String :=
  (fs.toks.find? (fun kv => kv.1 == p)).map Prod.snd

/-- Source `out_dir.exists()` / listing for an extracted directory. -/
def CacheFS.dirAt (fs : CacheFS) (p : String) : Option (List Entry) :=
  (fs.dirs.find? (fun kv => kv.1 == p)).map Prod.snd

/-- Replace-or-append update of an association list. -/
def setAssoc {α : Type} (l : List (String × α)) (k : String) (v : α) :
    List (String × α) :=
  if l.any (fun kv => kv.1 == k) then
    l.map (fun kv => if kv.1 == k then (k, v) else kv)
  else l ++ [(k, v)]

/-- Write a regular file. -/
def CacheFS.setFile (fs : CacheFS) (p : String) (r : FileRec) : CacheFS :=
  { fs with files := setAssoc fs.files p r }

/-- Write a token file (`fs::write(etag_f, etag)`). -/
def CacheFS.setTok (fs : CacheFS) (p : String) (t : String) : CacheFS :=
  { fs with toks := setAssoc fs.toks p t }

/-- Create or replace an extracted directory's listing. -/
def CacheFS.setDir (fs : CacheFS) (p : String) (es : List Entry) : CacheFS :=
  { fs with dirs := setAssoc fs.dirs p es }

/-- Source `DownloadError` from src/error.rs, with the reqwest variant split by
cause: transport failure on `send()`, non-success status from
`error_for_status()`; `io` covers the `io::Error` variant (including a failed
`resp.bytes()`/`write_all`). -/
inductive DlErr where
  | transport
  | status
  | io
deriving DecidableEq, Repr

/-- An HTTP response as the fetcher observes it: status code, optional ETag
header, and the outcome of reading the body (`resp.bytes()` can fail). -/
structure HttpResp where
  status : Nat
  etag : Option String
  body : Except Unit (List Nat)

/-- The outcome of a call that can also panic (Rust `unwrap`). -/
inductive Outcome (α : Type) where
  | ok (a : α)
  | err (e : DlErr)
  | panicked

/-- Whether an `Outcome` is a success. -/
def Outcome.isOk {α : Type} : Outcome α → Bool
  | .ok _ => true
  | _ => false

/-- The environment injected into the caching layer: the current time
(seconds), the network (`send` + `error_for_status` folded into one function
of the URL and the optional IF_NONE_MATCH token), and two external
collaborators modelled from the spec:
`unpackFn` — decompress+unarchive (the flate2/tar dependency): the downloaded
bytes determine the unpacked entry tree, or a decompression/archive I/O
failure; `hashFn` — HashDigest (the sha dependency): a stable content hash of
a byte buffer, an arbitrary fixed function of the bytes. -/
structure Env where
  now : Nat
  net : String → Option String → Except DlErr HttpResp
  unpackFn : List Nat → Except Unit (List Entry)
  hashFn : List Nat → String

/-- A trace of the HTTP requests made: URL and the token sent with
IF_NONE_MATCH, if any. -/
abbrev ReqTrace := List (String × Option String)

/-- Source `download_file` from src/repo_def.rs lines 166-205, as a state
transformer on the cache filesystem. Returns the filesystem after the call
(reflecting all writes performed before any failure), the request trace, and
the result. Faithful ordering of effects: read the prior token; send the
request (with IF_NONE_MATCH iff a prior token exists); on 304 return with no
writes; otherwise persist any new ETag token FIRST, then `File::create`
(truncate) the destination, then read the body and write it. -/
def download_file (net : String → Option String → Except DlErr HttpResp)
    (now : Nat) (url : String) (path : String) (etag_f : Option String)
    (fs : CacheFS) : CacheFS × ReqTrace × Except DlErr Unit :=
  let prev : Option String := match etag_f with
    | some ef => fs.tokAt ef
    | none => none
  let tr : ReqTrace := [(url, prev)]
  match net url prev with
  | .error e => (fs, tr, .error e)
  | .ok resp =>
    if resp.status == 304 then (fs, tr, .ok ())
    else
      let fs1 := match resp.etag, etag_f with
        | some t, some ef => fs.setTok ef t
        | _, _ => fs
      let fs2 := fs1.setFile path { bytes := [], mtime := now }
      match resp.body with
      | .error _ => (fs2, tr, .error .io)
      | .ok bs => (fs2.setFile path { bytes := bs, mtime := now }, tr, .ok ())

/-- Source `fs::rename(src, out_dir.join(child.file_name()))` for one child
`c` of the wrapper directory `X`, over the other top-level entries `top`
(the moved-so-far children and the entries beside the wrapper), with
rename(2) failure semantics. If the child is named like the wrapper, the
destination is the wrapper itself — a directory that is not empty, since it
still contains the very child being moved — so the rename fails
(ENOTEMPTY/EISDIR). If another entry of that name exists at the top level:
a file replaces a file and a directory replaces an EMPTY directory, while
every other combination fails (EISDIR/ENOTDIR/ENOTEMPTY). Otherwise the
child is moved up. -/
def renameUp (X : String) (top : List Entry) (c : Entry) :
    Except Unit (List Entry) :=
  if c.name == X then .error ()
  else
    match top.find? (fun e => e.name == c.name) with
    | some e =>
      match e, c with
      | .file _ _, .file _ _ =>
          .ok (top.map (fun x => if x.name == c.name then c else x))
      | .dir _ [], .dir _ _ =>
          .ok (top.map (fun x => if x.name == c.name then c else x))
      | _, _ => .error ()
    | none => .ok (top ++ [c])

/-- The rename loop of `flatten` (src/repo_def.rs lines 157-159): rename
each collected child of the wrapper `X` up to the top level in turn; the
first failing rename aborts the loop (`?`), leaving the listing with the
children moved so far plus the wrapper still holding the unmoved ones. -/
def renameLoop (X : String) : List Entry → List Entry →
    Except (List Entry) (List Entry)
  | top, [] => .ok top
  | top, c :: cs =>
    match renameUp X top c with
    | .ok top' => renameLoop X top' cs
    | .error _ => .error (Entry.dir X (c :: cs) :: top)

/-- Source `flatten` from src/repo_def.rs lines 142-164, on a directory
listing, returning the resulting top-level listing and the status: an empty
listing panics at `read_dir()?.next().unwrap()`; a non-directory first entry
fails its `read_dir` with an I/O error (nothing moved); otherwise the first
entry's children are renamed up one by one — the first failing rename aborts
with an I/O error and the wrapper still in place — and on success the
emptied wrapper is removed (`remove_dir`). Further top-level entries are
never inspected. -/
def flatten (entries : List Entry) : List Entry × Outcome Unit :=
  match entries with
  | [] => ([], .panicked)
  | .file _ _ :: _ => (entries, .err .io)
  | .dir X cs :: rest =>
    match renameLoop X rest cs with
    | .ok top => (top, .ok ())
    | .error ptop => (ptop, .err .io)

/-- The freshness/fetch phase of `RepoDef::download` (src/repo_def.rs lines
99-115): artifact missing → `download_file`; artifact older than 60 seconds
→ `download_file`; artifact modified within the last 60 seconds → no call.
Note the source passes `Some(&etag_f)` in BOTH fetching branches. -/
def fetchPhase (r : RepoDef) (env : Env) (fs : CacheFS) :
    CacheFS × ReqTrace × Except DlErr Unit :=
  let file := r.cache_file
  let path := file ++ ".tar.gz"
  let link := r.archive_link
  let etag_f := file ++ ".tar.etag"
  match fs.fileAt path with
  | some rec =>
    if env.now > rec.mtime + 60 then
      download_file env.net env.now link path (some etag_f) fs
    else (fs, [], .ok ())
  | none => download_file env.net env.now link path (some etag_f) fs

/-- The hash/extract phase of `RepoDef::download` (src/repo_def.rs lines
117-134), on the post-fetch state: `hash(&path)` — `fs::read(path).unwrap()`
panics if the artifact still does not exist; `out_dir = {file}-{hash}`;
return early if `out_dir` exists; otherwise create it, unpack the artifact
bytes into it and flatten. -/
def extractPhase (r : RepoDef) (env : Env) (fs1 : CacheFS) :
    CacheFS × Outcome String :=
  let file := r.cache_file
  let path := file ++ ".tar.gz"
  match fs1.fileAt path with
  | none => (fs1, .panicked)
  | some rec =>
    let h := env.hashFn rec.bytes
    let out_dir := file ++ "-" ++ h
    match fs1.dirAt out_dir with
    | some _ => (fs1, .ok out_dir)
    | none =>
      match env.unpackFn rec.bytes with
      | .error _ => (fs1.setDir out_dir [], .err .io)
      | .ok entries =>
        let fl := flatten entries
        match fl.2 with
        | .ok _ => (fs1.setDir out_dir fl.1, .ok out_dir)
        | .err e => (fs1.setDir out_dir fl.1, .err e)
        | .panicked => (fs1.setDir out_dir fl.1, .panicked)

/-- Source `RepoDef::download` from src/repo_def.rs lines 94-135, as a state
transformer on the cache filesystem, returning the final state, the request
trace and the outcome (the returned extracted-directory path on success):
the freshness/fetch phase, then — unless the fetch failed — the
hash/extract/flatten phase. -/
def RepoDef.download (r : RepoDef) (env : Env) (fs : CacheFS) :
    CacheFS × ReqTrace × Outcome String :=
  match fetchPhase r env fs with
  | (fs1, tr, .error e) => (fs1, tr, .err e)
  | (fs1, tr, .ok _) =>
    let s := extractPhase r env fs1
    (s.1, tr, s.2)

/-- Modelled from the spec: HashDigest — a "stable content hash of a byte
buffer". The source delegates to the external sha crate's SHA-512; for
concrete witnesses any fixed function of the bytes realizes the property
used (determinism), so a simple accumulating digest rendered as a decimal
string stands in. -/
def specHash (bytes : List Nat) : String :=
  toString (bytes.foldl (fun a b => (a * 33 + b + 1) % 1000000007) 5381)

/-! ## index insertion (BTreeSet semantics under Template's name-based Ord) -/

/-- Models `BTreeSet::<Template>::insert` on the iteration-order listing of
the set, under `Template`'s `Ord` from src/template.rs lines 41-58 (compare
by `name` only): insert at the sorted position; if an element with an equal
name is already present the set is NOT modified — the existing element is
kept and the new value dropped. -/
def insertTemplate : List Template → Template → List Template
  | [], t => [t]
  | x :: xs, t =>
    if t.name < x.name then t :: x :: xs
    else if t.name = x.name then x :: xs
    else x :: insertTemplate xs t

/-- Models `BTreeSet::<Template>::remove::<str>` (via `Borrow<str>`,
src/template.rs lines 60-64): remove the element whose name equals the key,
if present. -/
def removeTemplate : List Template → String → List Template
  | [], _ => []
  | x :: xs, n => if x.name = n then xs else x :: removeTemplate xs n

/-! ## Name validation (C8) -/

/-- The character set `[A-Za-z0-9_-]` of the specification, stated
independently of the source's negated test. -/
def inCharset (c : Char) : Prop :=
  ('A' ≤ c ∧ c ≤ 'Z') ∨ ('a' ≤ c ∧ c ≤ 'z') ∨ ('0' ≤ c ∧ c ≤ '9') ∨
    c = '-' ∨ c = '_'

instance (c : Char) : Decidable (inCharset c) := by
  unfold inCharset
  infer_instance

theorem badChar_false_iff (c : Char) : badChar c = false ↔ inCharset c := by
  simp only [badChar, inCharset, Bool.and_eq_false_iff, Bool.not_eq_false,
    Bool.and_eq_true, decide_eq_true_eq, Bool.or_eq_true, beq_iff_eq,
    Bool.not_eq_false']
  tauto

theorem firstBad_none_iff (cs : List Char) (i : Nat) :
    firstBad cs i = none ↔ ∀ c ∈ cs, badChar c = false := by
  induction cs generalizing i with
  | nil => simp [firstBad]
  | cons c cs ih =>
    by_cases h : badChar c = true
    · simp [firstBad, h]
    · simp only [Bool.not_eq_true] at h
      simp [firstBad, h, ih]

theorem firstBad_some_spec (cs : List Char) (i j : Nat) (c : Char)
    (h : firstBad cs i = some (j, c)) :
    ∃ k, j = i + k ∧ cs[k]? = some c ∧ badChar c = true ∧
      ∀ x ∈ cs.take k, badChar x = false := by
  induction cs generalizing i with
  | nil => simp [firstBad] at h
  | cons a as ih =>
    by_cases hb : badChar a = true
    · simp only [firstBad, hb, if_pos] at h
      obtain ⟨hj, hc⟩ := Prod.mk.injEq .. ▸ Option.some.injEq .. ▸ h
      refine ⟨0, by omega, ?_, ?_, by simp⟩
      · simp [← hc]
      · rw [← hc]; exact hb
    · simp only [Bool.not_eq_true] at hb
      simp only [firstBad, hb, Bool.false_eq_true, if_neg, not_false_iff] at h
      obtain ⟨k, hk, hget, hbad, hpre⟩ := ih (i + 1) h
      refine ⟨k + 1, by omega, by simpa using hget, hbad, ?_⟩
      intro x hx
      rcases List.mem_cons.mp (by simpa using hx) with rfl | hx'
      · exact hb
      · exact hpre x hx'

/-- C8: `check_template_name` succeeds iff every character of the name is in
`[A-Za-z0-9_-]`; on failure it reports the first offending character together
with its index; in particular `check_template_name "ok-name_1"` succeeds and
`check_template_name "bad name"` fails reporting the space character at
index 3. -/
theorem c8_name_validation :
    (∀ name : String,
        check_template_name name = .ok () ↔ ∀ c ∈ name.data, inCharset c)
    ∧ (∀ (name : String) (c : Char) (i : Nat),
        check_template_name name = .error (.invalidCharacter c i) →
          name.data[i]? = some c ∧ ¬ inCharset c ∧
            ∀ x ∈ name.data.take i, inCharset x)
    ∧ check_template_name "ok-name_1" = .ok ()
    ∧ check_template_name "bad name" = .error (.invalidCharacter ' ' 3) := by
  refine ⟨?_, ?_, by rfl, by rfl⟩
  · intro name
    unfold check_template_name
    rcases h : firstBad name.data 0 with _ | ⟨j, c⟩
    · rw [firstBad_none_iff] at h
      simp only [true_iff]
      intro c hc
      exact (badChar_false_iff c).mp (h c hc)
    · simp only [reduceCtorEq, false_iff, not_forall]
      obtain ⟨k, _, hget, hbad, _⟩ := firstBad_some_spec name.data 0 j c h
      refine ⟨c, List.getElem?_mem hget, ?_⟩
      intro hin
      rw [← badChar_false_iff] at hin
      rw [hin] at hbad
      exact Bool.false_ne_true hbad
  · intro name c i h
    unfold check_template_name at h
    rcases hfb : firstBad name.data 0 with _ | ⟨j, c'⟩ <;> rw [hfb] at h
    · exact absurd h (by simp)
    · simp only [Except.error.injEq, CheckTemplateNameError.invalidCharacter.injEq] at h
      obtain ⟨rfl, rfl⟩ := h
      obtain ⟨k, hk, hget, hbad, hpre⟩ := firstBad_some_spec name.data 0 j c' hfb
      have hkj : j = k := by omega
      subst hkj
      refine ⟨hget, ?_, ?_⟩
      · intro hin
        rw [← badChar_false_iff] at hin
        rw [hin] at hbad
        exact Bool.false_ne_true hbad
      · intro x hx
        exact (badChar_false_iff x).mp (hpre x hx)

/-- Witness for C8: the failure-reporting part applied to the concrete name
`"bad name"`. -/
theorem c8_name_validation_witness :
    ("bad name").data[3]? = some ' ' ∧ ¬ inCharset ' ' ∧
      ∀ x ∈ ("bad name").data.take 3, inCharset x :=
  c8_name_validation.2.1 "bad name" ' ' 3 rfl

/-! ## Search classification (C6, C10) -/

theorem findTriple_fst (term : String) (t : Template) :
    (findTriple term t).1 =
      if nameMatch t term && descMatch t term then some t else none := by
  rcases h1 : nameMatch t term <;> rcases h2 : descMatch t term <;>
    simp [findTriple, h1, h2]

theorem findTriple_snd_fst (term : String) (t : Template) :
    (findTriple term t).2.1 =
      if nameMatch t term && !descMatch t term then some t else none := by
  rcases h1 : nameMatch t term <;> rcases h2 : descMatch t term <;>
    simp [findTriple, h1, h2]

theorem findTriple_snd_snd (term : String) (t : Template) :
    (findTriple term t).2.2 =
      if !nameMatch t term && descMatch t term then some t else none := by
  rcases h1 : nameMatch t term <;> rcases h2 : descMatch t term <;>
    simp [findTriple, h1, h2]

/-- The three buckets of `find`, rewritten as direct `filterMap`s over the
catalog (the source's map/unzip/filter_map pipeline composed). -/
theorem find_eq (idx : TemplateIndex) (term : String) :
    idx.find term =
      { name_and_description :=
          idx.templates.filterMap (fun t => (findTriple term t).1)
        name_only := idx.templates.filterMap (fun t => (findTriple term t).2.1)
        description_only :=
          idx.templates.filterMap (fun t => (findTriple term t).2.2) } := by
  unfold TemplateIndex.find
  simp only [List.map_map, List.filterMap_map]
  rfl

theorem descMatch_true_iff (t : Template) (term : String) :
    descMatch t term = true ↔
      ∃ d, t.description = some d ∧ strContains d term = true := by
  unfold descMatch
  rcases h : t.description with _ | d <;> simp

/-- C6: search classification is a partition: for every catalog, term and
entry of the catalog, `find(term)` places the entry in exactly one of
{name_and_description, name_only, description_only, neither}; the entry
lands in name_and_description iff the term is a substring of its name and a
description is present of which the term is also a substring; entries
matching neither name nor description appear in no bucket. -/
theorem c6_search_partition :
    ∀ (idx : TemplateIndex) (term : String) (t : Template),
      t ∈ idx.templates →
      ((t ∈ (idx.find term).name_and_description ↔
          nameMatch t term = true ∧
            ∃ d, t.description = some d ∧ strContains d term = true)
        ∧ (t ∈ (idx.find term).name_only ↔
            nameMatch t term = true ∧ descMatch t term = false)
        ∧ (t ∈ (idx.find term).description_only ↔
            nameMatch t term = false ∧ descMatch t term = true)
        ∧ (t ∈ (idx.find term).name_and_description →
            t ∉ (idx.find term).name_only ∧
              t ∉ (idx.find term).description_only)
        ∧ (t ∈ (idx.find term).name_only →
            t ∉ (idx.find term).description_only)
        ∧ (nameMatch t term = false → descMatch t term = false →
            t ∉ (idx.find term).name_and_description ∧
              t ∉ (idx.find term).name_only ∧
              t ∉ (idx.find term).description_only)) := by
  intro idx term t ht
  have h1 : t ∈ (idx.find term).name_and_description ↔
      nameMatch t term = true ∧ descMatch t term = true := by
    rw [find_eq]
    simp only [List.mem_filterMap, findTriple_fst]
    constructor
    · rintro ⟨a, _, ha⟩
      split at ha
      next hcond =>
        injection ha with hat
        subst hat
        rw [Bool.and_eq_true] at hcond
        exact hcond
      next => cases ha
    · rintro ⟨hn, hd⟩
      exact ⟨t, ht, by simp [hn, hd]⟩
  have h2 : t ∈ (idx.find term).name_only ↔
      nameMatch t term = true ∧ descMatch t term = false := by
    rw [find_eq]
    simp only [List.mem_filterMap, findTriple_snd_fst]
    constructor
    · rintro ⟨a, _, ha⟩
      split at ha
      next hcond =>
        injection ha with hat
        subst hat
        simp only [Bool.and_eq_true, Bool.not_eq_true'] at hcond
        exact hcond
      next => cases ha
    · rintro ⟨hn, hd⟩
      exact ⟨t, ht, by simp [hn, hd]⟩
  have h3 : t ∈ (idx.find term).description_only ↔
      nameMatch t term = false ∧ descMatch t term = true := by
    rw [find_eq]
    simp only [List.mem_filterMap, findTriple_snd_snd]
    constructor
    · rintro ⟨a, _, ha⟩
      split at ha
      next hcond =>
        injection ha with hat
        subst hat
        simp only [Bool.and_eq_true, Bool.not_eq_true'] at hcond
        exact hcond
      next => cases ha
    · rintro ⟨hn, hd⟩
      exact ⟨t, ht, by simp [hn, hd]⟩
  refine ⟨by rw [h1, descMatch_true_iff], h2, h3, ?_, ?_, ?_⟩
  · intro hb
    rw [h1] at hb
    constructor
    · rw [h2]; rintro ⟨_, hd⟩; rw [hb.2] at hd; cases hd
    · rw [h3]; rintro ⟨hn, _⟩; rw [hb.1] at hn; cases hn
  · intro hb
    rw [h2] at hb
    rw [h3]; rintro ⟨hn, _⟩; rw [hb.1] at hn; cases hn
  · intro hn hd
    refine ⟨?_, ?_, ?_⟩
    · rw [h1]; rintro ⟨h, _⟩; rw [hn] at h; cases h
    · rw [h2]; rintro ⟨h, _⟩; rw [hn] at h; cases h
    · rw [h3]; rintro ⟨_, h⟩; rw [hd] at h; cases h

/-- Witness for C6: the scenario catalog — `"web-api"` (description
`"REST service"`) and `"web-ui"` (no description) — searched for `"web"`:
`web-api` lands in the name_only bucket. -/
theorem c6_search_partition_witness :
    Template.local "web-api" (some "REST service") "/p" ∈
      ((TemplateIndex.mk false
          [Template.local "web-api" (some "REST service") "/p",
           Template.local "web-ui" none "/q"]).find "web").name_only :=
  ((c6_search_partition
      (TemplateIndex.mk false
        [Template.local "web-api" (some "REST service") "/p",
         Template.local "web-ui" none "/q"]) "web"
      (Template.local "web-api" (some "REST service") "/p")
      (by simp)).2.1).mpr (by decide)

theorem strContains_empty_term (s : String) : strContains s "" = true := by
  unfold strContains
  have h : ("" : String).data = [] := rfl
  rw [h]
  cases s.data <;> simp [hasSub, hasPre]

theorem findTriple_empty_term (t : Template) :
    findTriple "" t =
      if t.description.isSome then (some t, (none, none))
      else (none, (some t, none)) := by
  unfold findTriple nameMatch descMatch
  rcases h : t.description with _ | d <;>
    simp [strContains_empty_term, h]

theorem filterMap_findTriple_fst_empty (ts : List Template) :
    ts.filterMap (fun t => (findTriple "" t).1) =
      ts.filter (fun t => t.description.isSome) := by
  induction ts with
  | nil => rfl
  | cons a as ih =>
    rw [List.filterMap_cons, List.filter_cons]
    rcases h : a.description with _ | d
    · have ha : (findTriple "" a).1 = none := by
        rw [findTriple_empty_term]; simp [h]
      rw [ha, ih]
      simp [h]
    · have ha : (findTriple "" a).1 = some a := by
        rw [findTriple_empty_term]; simp [h]
      rw [ha, ih]
      simp [h]

theorem filterMap_findTriple_snd_fst_empty (ts : List Template) :
    ts.filterMap (fun t => (findTriple "" t).2.1) =
      ts.filter (fun t => !t.description.isSome) := by
  induction ts with
  | nil => rfl
  | cons a as ih =>
    rw [List.filterMap_cons, List.filter_cons]
    rcases h : a.description with _ | d
    · have ha : (findTriple "" a).2.1 = some a := by
        rw [findTriple_empty_term]; simp [h]
      rw [ha, ih]
      simp [h]
    · have ha : (findTriple "" a).2.1 = none := by
        rw [findTriple_empty_term]; simp [h]
      rw [ha, ih]
      simp [h]

theorem filterMap_findTriple_snd_snd_empty (ts : List Template) :
    ts.filterMap (fun t => (findTriple "" t).2.2) = [] := by
  induction ts with
  | nil => rfl
  | cons a as ih =>
    rw [List.filterMap_cons]
    have ha : (findTriple "" a).2.2 = none := by
      rw [findTriple_empty_term]
      rcases h : a.description with _ | d <;> simp [h]
    rw [ha, ih]

/-- C10: for the empty search term, `find` places every entry that has a
description into the name_and_description bucket, every entry without one
into the name_only bucket, and leaves the description_only bucket empty —
the empty string is a substring of every name and every present
description. -/
theorem c10_empty_term_find (idx : TemplateIndex) :
    (idx.find "").name_and_description =
        idx.templates.filter (fun t => t.description.isSome)
      ∧ (idx.find "").name_only =
        idx.templates.filter (fun t => !t.description.isSome)
      ∧ (idx.find "").description_only = [] := by
  rw [find_eq]
  exact ⟨filterMap_findTriple_fst_empty idx.templates,
    filterMap_findTriple_snd_fst_empty idx.templates,
    filterMap_findTriple_snd_snd_empty idx.templates⟩

/-! ## Merge order (C7) -/

/-- The fold of `Subcommand::Find`, bucket-wise: folding remote results onto
an accumulator appends, per bucket, each remote's tagged hits in order. -/
theorem findAll_foldl_buckets (term : String)
    (remotes : List (String × TemplateIndex)) (acc : FindResultComposite) :
    (remotes.foldl (fun a p => a.merge ((p.2.find term).compose p.1)) acc).name_and_description
        = acc.name_and_description ++
          (remotes.map (fun p =>
            ((p.2.find term).name_and_description.map (fun t => (p.1, t))))).flatten
      ∧ (remotes.foldl (fun a p => a.merge ((p.2.find term).compose p.1)) acc).name_only
        = acc.name_only ++
          (remotes.map (fun p =>
            ((p.2.find term).name_only.map (fun t => (p.1, t))))).flatten
      ∧ (remotes.foldl (fun a p => a.merge ((p.2.find term).compose p.1)) acc).description_only
        = acc.description_only ++
          (remotes.map (fun p =>
            ((p.2.find term).description_only.map (fun t => (p.1, t))))).flatten := by
  induction remotes generalizing acc with
  | nil => simp
  | cons r rs ih =>
    simp only [List.foldl_cons, List.map_cons, List.flatten_cons]
    obtain ⟨i1, i2, i3⟩ := ih (acc.merge ((r.2.find term).compose r.1))
    refine ⟨?_, ?_, ?_⟩
    · rw [i1]
      simp [FindResultComposite.merge, FindResult.compose, List.append_assoc]
    · rw [i2]
      simp [FindResultComposite.merge, FindResult.compose, List.append_assoc]
    · rw [i3]
      simp [FindResultComposite.merge, FindResult.compose, List.append_assoc]

/-- C7: merge preserves source order: `merge(a, b)` is the bucket-wise
concatenation of `a`'s hits before `b`'s hits in each of the three buckets;
`compose` tags every hit with its source catalog's label; and the Find
subcommand's aggregation — local catalog first, then each remote catalog in
configured order — yields, within every bucket, all local hits (tagged
`"<local>"`) before all remote hits. -/
theorem c7_merge_order :
    (∀ a b : FindResultComposite,
        (a.merge b).name_and_description =
            a.name_and_description ++ b.name_and_description
          ∧ (a.merge b).name_only = a.name_only ++ b.name_only
          ∧ (a.merge b).description_only =
            a.description_only ++ b.description_only)
    ∧ (∀ (r : FindResult) (label : String),
        (r.compose label).name_and_description =
            r.name_and_description.map (fun t => (label, t))
          ∧ (r.compose label).name_only = r.name_only.map (fun t => (label, t))
          ∧ (r.compose label).description_only =
            r.description_only.map (fun t => (label, t)))
    ∧ (∀ (localIdx : TemplateIndex) (remotes : List (String × TemplateIndex))
          (term : String),
        (findAll localIdx remotes term).name_and_description
            = (localIdx.find term).name_and_description.map
                (fun t => ("<local>", t)) ++
              (remotes.map (fun p =>
                ((p.2.find term).name_and_description.map
                  (fun t => (p.1, t))))).flatten
          ∧ (findAll localIdx remotes term).name_only
            = (localIdx.find term).name_only.map (fun t => ("<local>", t)) ++
              (remotes.map (fun p =>
                ((p.2.find term).name_only.map (fun t => (p.1, t))))).flatten
          ∧ (findAll localIdx remotes term).description_only
            = (localIdx.find term).description_only.map
                (fun t => ("<local>", t)) ++
              (remotes.map (fun p =>
                ((p.2.find term).description_only.map
                  (fun t => (p.1, t))))).flatten) := by
  refine ⟨fun a b => ⟨rfl, rfl, rfl⟩, fun r label => ⟨rfl, rfl, rfl⟩, ?_⟩
  intro localIdx remotes term
  obtain ⟨h1, h2, h3⟩ :=
    findAll_foldl_buckets term remotes ((localIdx.find term).compose "<local>")
  exact ⟨h1, h2, h3⟩

/-! ## Duplicate insert (C9) -/

theorem insertTemplate_mem_of_no_dup (ts : List Template) (t : Template)
    (h : ∀ x ∈ ts, x.name ≠ t.name) : t ∈ insertTemplate ts t := by
  induction ts with
  | nil => simp [insertTemplate]
  | cons x xs ih =>
    unfold insertTemplate
    by_cases hlt : t.name < x.name
    · simp [hlt]
    · have hne : t.name ≠ x.name := fun he => h x (by simp) he.symm
      rw [if_neg hlt, if_neg hne]
      exact List.mem_cons_of_mem x (ih (fun x hx => h x (by simp [hx])))

theorem removeTemplate_no_dup (ts : List Template) (n : String)
    (hs : ts.Pairwise (fun a b => a.name < b.name)) :
    ∀ x ∈ removeTemplate ts n, x.name ≠ n := by
  induction ts with
  | nil => simp [removeTemplate]
  | cons a as ih =>
    rw [List.pairwise_cons] at hs
    unfold removeTemplate
    by_cases ha : a.name = n
    · rw [if_pos ha]
      intro x hx he
      exact absurd (ha ▸ he ▸ hs.1 x hx) (lt_irrefl _)
    · rw [if_neg ha]
      intro x hx
      rcases List.mem_cons.mp hx with rfl | hx'
      · exact ha
      · exact ih hs.2 x hx'

/-- C9: duplicate insert is a no-op on the payload: for every
name-sorted catalog and every entry whose name equals the name of an entry
already present, inserting leaves the catalog entirely unchanged — the
original entry with all its other fields is kept and the new payload is
discarded; and after an explicit remove of that name, the insert does store
the new entry. -/
theorem c9_duplicate_insert (ts : List Template) (t t0 : Template)
    (hs : ts.Pairwise (fun a b => a.name < b.name))
    (h0 : t0 ∈ ts) (hn : t0.name = t.name) :
    insertTemplate ts t = ts
      ∧ t ∈ insertTemplate (removeTemplate ts t.name) t := by
  constructor
  · induction ts with
    | nil => cases h0
    | cons x xs ih =>
      rw [List.pairwise_cons] at hs
      unfold insertTemplate
      rcases List.mem_cons.mp h0 with rfl | h0'
      · rw [if_neg (by rw [← hn]; exact lt_irrefl _), if_pos hn.symm]
      · have hxt : x.name < t.name := hn ▸ hs.1 t0 h0'
        rw [if_neg (by exact fun hc => absurd (hc.trans hxt) (lt_irrefl _)),
          if_neg (by exact fun hc => absurd (hc ▸ hxt) (lt_irrefl _)),
          ih hs.2 h0']
  · exact insertTemplate_mem_of_no_dup _ t (removeTemplate_no_dup ts t.name hs)

/-- Witness for C9: inserting a `Local` entry named `"web-api"` into a
catalog already holding a `Repo` entry of that name changes nothing, and
remove-then-insert does store the new entry. -/
theorem c9_duplicate_insert_witness :
    insertTemplate
        [Template.repo "web-api" (some "REST service")
          (RepoDef.mk .GitHub "u" "r" "main") none none,
         Template.local "web-ui" none "/q"]
        (Template.local "web-api" (some "other") "/p")
      = [Template.repo "web-api" (some "REST service")
          (RepoDef.mk .GitHub "u" "r" "main") none none,
         Template.local "web-ui" none "/q"]
    ∧ Template.local "web-api" (some "other") "/p" ∈
        insertTemplate
          (removeTemplate
            [Template.repo "web-api" (some "REST service")
              (RepoDef.mk .GitHub "u" "r" "main") none none,
             Template.local "web-ui" none "/q"]
            (Template.local "web-api" (some "other") "/p").name)
          (Template.local "web-api" (some "other") "/p") :=
  c9_duplicate_insert
    [Template.repo "web-api" (some "REST service")
      (RepoDef.mk .GitHub "u" "r" "main") none none,
     Template.local "web-ui" none "/q"]
    (Template.local "web-api" (some "other") "/p")
    (Template.repo "web-api" (some "REST service")
      (RepoDef.mk .GitHub "u" "r" "main") none none)
    (by simp [Template.name]; decide)
    (by simp)
    (by rfl)

/-! ## Conditional fetch: token ordering (C2) -/

/-- The network behaviour for the C2 failing input: a 200 response carrying
a new ETag `"T2"` whose body read then fails. -/
def c2net : String → Option String → Except DlErr HttpResp :=
  fun _ _ => .ok { status := 200, etag := some "T2", body := .error () }

/-- The C2 starting state: cached bytes `[1, 2, 3]` paired with the prior
token `"T1"`. -/
def c2fs : CacheFS :=
  { files := [("p.tar.gz", { bytes := [1, 2, 3], mtime := 0 })]
    toks := [("p.tar.etag", "T1")]
    dirs := [] }

/-- C2 (code bug in `download_file`, src/repo_def.rs lines 193-202): the new
revalidation token is persisted BEFORE the body is written. On the failing
input — a 200 response with ETag `"T2"` whose body read fails — the call
returns an error, yet the token file already holds `"T2"` while the
destination holds the truncated content of `File::create`, not the bytes the
token describes; the previously stored pair (`"T1"`, `[1,2,3]`) is
destroyed. -/
theorem c2_token_before_bytes :
    (download_file c2net 100 "http://host/a.tar.gz" "p.tar.gz"
        (some "p.tar.etag") c2fs).2.2 = .error .io
      ∧ (download_file c2net 100 "http://host/a.tar.gz" "p.tar.gz"
          (some "p.tar.etag") c2fs).1.tokAt "p.tar.etag" = some "T2"
      ∧ (download_file c2net 100 "http://host/a.tar.gz" "p.tar.gz"
          (some "p.tar.etag") c2fs).1.fileAt "p.tar.gz"
        = some { bytes := [], mtime := 100 } :=
  ⟨rfl, rfl, rfl⟩

/-! ## Freshness policy (C3) -/

/-- Every call of `download_file` sends exactly one request, carrying the
token stored at the token path, when that file exists. -/
theorem download_file_trace (net : String → Option String → Except DlErr HttpResp)
    (now : Nat) (url path ef : String) (fs : CacheFS) :
    (download_file net now url path (some ef) fs).2.1 = [(url, fs.tokAt ef)] := by
  unfold download_file
  dsimp only
  rcases hn : net url (fs.tokAt ef) with e | resp
  · rfl
  · dsimp only
    by_cases hs : (resp.status == 304) = true
    · rw [if_pos hs]
    · rw [if_neg hs]
      rcases hb : resp.body with u | bs <;> rfl

/-- The request trace of `download` is that of its freshness/fetch phase. -/
theorem download_trace (r : RepoDef) (env : Env) (fs : CacheFS) :
    (r.download env fs).2.1 = (fetchPhase r env fs).2.1 := by
  unfold RepoDef.download
  rcases h : fetchPhase r env fs with ⟨fs1, tr, res⟩
  rcases res with e | u
  · simp
  · simp

/-- C3 (amended): a fetch happens iff the artifact is missing or was last
modified more than 60 seconds ago — an artifact modified within the last 60
seconds is reused with no network call; but whenever a fetch happens the
request carries the token stored in the co-located token file whenever that
file exists, REGARDLESS of whether the artifact itself exists (the source
passes `Some(&etag_f)` in both fetching branches). -/
theorem c3_freshness :
    ∀ (r : RepoDef) (env : Env) (fs : CacheFS),
      ((∀ rec : FileRec, fs.fileAt (r.cache_file ++ ".tar.gz") = some rec →
          env.now ≤ rec.mtime + 60 → (r.download env fs).2.1 = [])
      ∧ (fs.fileAt (r.cache_file ++ ".tar.gz") = none →
          (r.download env fs).2.1 =
            [(r.archive_link, fs.tokAt (r.cache_file ++ ".tar.etag"))])
      ∧ (∀ rec : FileRec, fs.fileAt (r.cache_file ++ ".tar.gz") = some rec →
          env.now > rec.mtime + 60 →
          (r.download env fs).2.1 =
            [(r.archive_link, fs.tokAt (r.cache_file ++ ".tar.etag"))])) := by
  intro r env fs
  refine ⟨?_, ?_, ?_⟩
  · intro rec h1 h2
    rw [download_trace]
    unfold fetchPhase
    dsimp only
    rw [h1]
    dsimp only
    rw [if_neg (by omega)]
  · intro h1
    rw [download_trace]
    unfold fetchPhase
    dsimp only
    rw [h1]
    dsimp only
    rw [download_file_trace]
  · intro rec h1 h2
    rw [download_trace]
    unfold fetchPhase
    dsimp only
    rw [h1]
    dsimp only
    rw [if_pos (by omega), download_file_trace]

/-- The repository reference of the C3 counterexample. -/
def c3r : RepoDef :=
  { git_provider := .GitHub, user := "u", repo := "r", git_ref := "main" }

/-- The environment of the C3 counterexample: plain 200 responses. -/
def c3env : Env :=
  { now := 50
    net := fun _ _ => .ok { status := 200, etag := none, body := .ok [7] }
    unpackFn := fun _ => .ok [Entry.dir "X" [Entry.file "a" []]]
    hashFn := specHash }

/-- The cache state of the C3 counterexample: the artifact is MISSING but
the co-located token file survives with token `"T1"`. -/
def c3fs : CacheFS :=
  { files := [], toks := [("github_u_r_main.tar.etag", "T1")], dirs := [] }

/-- C3 counterexample: with the artifact missing, the claim says an
unconditional fetch is performed with no revalidation token; but the single
request actually made carries the stored token `"T1"`. -/
theorem c3_counterexample :
    c3fs.fileAt "github_u_r_main.tar.gz" = none
      ∧ (c3r.download c3env c3fs).2.1 = [(c3r.archive_link, some "T1")] :=
  ⟨rfl, rfl⟩

/-- The fresh-artifact state for the C3 witness. -/
def c3wfs : CacheFS :=
  { files := [("github_u_r_main.tar.gz", { bytes := [7], mtime := 40 })]
    toks := []
    dirs := [] }

/-- Witness for C3 (amended): a 10-second-old artifact is reused with no
network request. -/
theorem c3_freshness_witness : (c3r.download c3env c3wfs).2.1 = [] :=
  (c3_freshness c3r c3env c3wfs).1 { bytes := [7], mtime := 40 } rfl (by decide)

/-! ## Content-addressing (C1) -/

theorem fileAt_setDir (fs : CacheFS) (p : String) (es : List Entry) (q : String) :
    (fs.setDir p es).fileAt q = fs.fileAt q := rfl

/-- Whenever the hash/extract phase succeeds, the returned directory is
`{cache_file}-{hash of the artifact bytes}`, and the artifact is unchanged
in the final state. -/
theorem extractPhase_ok (r : RepoDef) (env : Env) (fs1 fs2 : CacheFS) (d : String)
    (h : extractPhase r env fs1 = (fs2, .ok d)) :
    ∃ rec, fs1.fileAt (r.cache_file ++ ".tar.gz") = some rec ∧
      d = r.cache_file ++ "-" ++ env.hashFn rec.bytes ∧
      fs2.fileAt (r.cache_file ++ ".tar.gz") = some rec := by
  unfold extractPhase at h
  dsimp only at h
  rcases ha : fs1.fileAt (r.cache_file ++ ".tar.gz") with _ | rec <;> rw [ha] at h
  · simp at h
  · dsimp only at h
    refine ⟨rec, rfl, ?_⟩
    rcases hd : fs1.dirAt (r.cache_file ++ "-" ++ env.hashFn rec.bytes) with _ | es <;>
      rw [hd] at h
    · dsimp only at h
      rcases hu : env.unpackFn rec.bytes with u | entries <;> rw [hu] at h
      · simp at h
      · dsimp only at h
        rcases hered : flatten entries with ⟨ftop, fst⟩
        rw [hered] at h
        rcases fst with u | e | _ <;> simp only [Prod.mk.injEq] at h
        · obtain ⟨rfl, hok⟩ := h
          cases hok
          exact ⟨rfl, ha⟩
        · cases h.2
        · cases h.2
    · simp only [Prod.mk.injEq] at h
      obtain ⟨rfl, hok⟩ := h
      cases hok
      exact ⟨rfl, ha⟩

/-- Whenever `download` succeeds, the returned directory path is
`{cache_file}-{hash of the final artifact bytes}`. -/
theorem download_ok_dir (r : RepoDef) (env : Env) (fs fs' : CacheFS)
    (tr : ReqTrace) (d : String)
    (h : r.download env fs = (fs', tr, .ok d)) :
    ∃ rec, fs'.fileAt (r.cache_file ++ ".tar.gz") = some rec ∧
      d = r.cache_file ++ "-" ++ env.hashFn rec.bytes := by
  unfold RepoDef.download at h
  rcases hf : fetchPhase r env fs with ⟨fs1, tr1, res⟩
  rw [hf] at h
  rcases res with e | u
  · simp at h
  · dsimp only at h
    simp only [Prod.mk.injEq] at h
    obtain ⟨h1, _, h3⟩ := h
    obtain ⟨rec, _, hdir, hart⟩ :=
      extractPhase_ok r env fs1 (extractPhase r env fs1).1 d
        (by rw [← h3])
    exact ⟨rec, h1 ▸ hart, hdir⟩

/-- C1 (amended): two resolutions against the same cache root whose
references share the same cache key (`provider_user_repo_ref`) and whose
downloaded archive bytes are byte-identical return the same extracted
directory path. (The extracted directory is keyed by cache key AND content
digest together, so this holds only under equal cache keys; see the
counterexample for distinct keys.) -/
theorem c1_content_addressing :
    ∀ (env : Env) (r1 r2 : RepoDef) (fs1 fs2 fs1' fs2' : CacheFS)
      (t1 t2 : ReqTrace) (d1 d2 : String) (rec1 rec2 : FileRec),
      r1.cache_file = r2.cache_file →
      r1.download env fs1 = (fs1', t1, .ok d1) →
      r2.download env fs2 = (fs2', t2, .ok d2) →
      fs1'.fileAt (r1.cache_file ++ ".tar.gz") = some rec1 →
      fs2'.fileAt (r2.cache_file ++ ".tar.gz") = some rec2 →
      rec1.bytes = rec2.bytes →
      d1 = d2 := by
  intro env r1 r2 fs1 fs2 fs1' fs2' t1 t2 d1 d2 rec1 rec2 hcf h1 h2 ha1 ha2 hb
  obtain ⟨s1, hs1, hd1⟩ := download_ok_dir r1 env fs1 fs1' t1 d1 h1
  obtain ⟨s2, hs2, hd2⟩ := download_ok_dir r2 env fs2 fs2' t2 d2 h2
  rw [ha1] at hs1
  rw [ha2] at hs2
  cases hs1
  cases hs2
  rw [hd1, hd2, hcf, hb]

/-- The environment of the C1 counterexample: every URL serves the same
bytes `[1, 2, 3]` with ETag `"E"`. -/
def c1env : Env :=
  { now := 0
    net := fun _ _ => .ok { status := 200, etag := some "E", body := .ok [1, 2, 3] }
    unpackFn := fun _ => .ok [Entry.dir "X" [Entry.file "a" []]]
    hashFn := specHash }

/-- The empty cache root. -/
def c1fs0 : CacheFS := { files := [], toks := [], dirs := [] }

/-- First reference of the C1 counterexample. -/
def c1rA : RepoDef :=
  { git_provider := .GitHub, user := "u1", repo := "r", git_ref := "main" }

/-- Second reference of the C1 counterexample: a different user, but the
network serves byte-identical archives. -/
def c1rB : RepoDef :=
  { git_provider := .GitHub, user := "u2", repo := "r", git_ref := "main" }

/-- The cache state after resolving the first reference. -/
def c1fsA : CacheFS := (c1rA.download c1env c1fs0).1

/-- C1 counterexample: two references resolved against the same cache root
download byte-identical archives (`[1, 2, 3]` in both final states), both
succeed, yet the extracted directory paths differ — the directory key is
`{cacheKey}-{digest}`, not the digest alone, so distinct references never
share an extracted tree. -/
theorem c1_counterexample :
    (c1rA.download c1env c1fs0).2.2 =
        .ok ("github_u1_r_main-" ++ specHash [1, 2, 3])
      ∧ (c1rB.download c1env c1fsA).2.2 =
        .ok ("github_u2_r_main-" ++ specHash [1, 2, 3])
      ∧ (c1rA.download c1env c1fs0).1.fileAt "github_u1_r_main.tar.gz"
        = some { bytes := [1, 2, 3], mtime := 0 }
      ∧ (c1rB.download c1env c1fsA).1.fileAt "github_u2_r_main.tar.gz"
        = some { bytes := [1, 2, 3], mtime := 0 }
      ∧ ("github_u1_r_main-" ++ specHash [1, 2, 3])
        ≠ ("github_u2_r_main-" ++ specHash [1, 2, 3]) :=
  ⟨rfl, rfl, rfl, rfl, by decide⟩

/-- A reference whose cache key collides with `c1wrB`'s: underscores make
`(user "a_b", repo "c")` and `(user "a", repo "b_c")` share the key
`github_a_b_c_main`. -/
def c1wrA : RepoDef :=
  { git_provider := .GitHub, user := "a_b", repo := "c", git_ref := "main" }

/-- See `c1wrA`. -/
def c1wrB : RepoDef :=
  { git_provider := .GitHub, user := "a", repo := "b_c", git_ref := "main" }

/-- Witness for C1 (amended): two distinct references with equal cache keys
and byte-identical downloads resolve to the same extracted directory. -/
theorem c1_content_addressing_witness :
    ("github_a_b_c_main-" ++ specHash [1, 2, 3] : String)
      = "github_a_b_c_main-" ++ specHash [1, 2, 3] :=
  c1_content_addressing c1env c1wrA c1wrB c1fs0 c1fs0
    (c1wrA.download c1env c1fs0).1 (c1wrB.download c1env c1fs0).1
    (c1wrA.download c1env c1fs0).2.1 (c1wrB.download c1env c1fs0).2.1
    ("github_a_b_c_main-" ++ specHash [1, 2, 3])
    ("github_a_b_c_main-" ++ specHash [1, 2, 3])
    { bytes := [1, 2, 3], mtime := 0 } { bytes := [1, 2, 3], mtime := 0 }
    rfl rfl rfl rfl rfl rfl

/-! ## Top-level shape and flattening (C4, C5) -/

theorem find_replace_aux {α : Type} (k : String) (v : α) :
    ∀ l : List (String × α), l.any (fun kv => kv.1 == k) = true →
      ((l.map (fun kv => if kv.1 == k then (k, v) else kv)).find?
        (fun kv => kv.1 == k)).map Prod.snd = some v := by
  intro l
  induction l with
  | nil => intro h; cases h
  | cons kv l ih =>
    intro h
    by_cases hk : (kv.1 == k) = true
    · simp only [List.map_cons]
      rw [if_pos hk, List.find?_cons_of_pos _ (by simp)]
      rfl
    · simp only [List.any_cons, Bool.or_eq_true] at h
      rcases h with h | h
      · exact absurd h hk
      · simp only [List.map_cons]
        rw [if_neg hk, List.find?_cons_of_neg _ (by simpa using hk)]
        exact ih h

theorem find_append_aux {α : Type} (k : String) (v : α) :
    ∀ l : List (String × α), l.any (fun kv => kv.1 == k) = false →
      ((l ++ [(k, v)]).find? (fun kv => kv.1 == k)).map Prod.snd = some v := by
  intro l
  induction l with
  | nil =>
    intro _
    rw [List.nil_append, List.find?_cons_of_pos _ (by simp)]
    rfl
  | cons kv l ih =>
    intro h
    simp only [List.any_cons, Bool.or_eq_false_iff] at h
    simp only [List.cons_append]
    rw [List.find?_cons_of_neg _ (by simp [h.1])]
    exact ih h.2

theorem find_setAssoc_self {α : Type} (l : List (String × α)) (k : String) (v : α) :
    ((setAssoc l k v).find? (fun kv => kv.1 == k)).map Prod.snd = some v := by
  unfold setAssoc
  by_cases h : (l.any (fun kv => kv.1 == k)) = true
  · rw [if_pos h]
    exact find_replace_aux k v l h
  · rw [if_neg h]
    exact find_append_aux k v l (Bool.eq_false_iff.mpr h)

theorem dirAt_setDir_self (fs : CacheFS) (p : String) (es : List Entry) :
    (fs.setDir p es).dirAt p = some es :=
  find_setAssoc_self fs.dirs p es

/-- With a fresh artifact (modified within 60 seconds), `download` performs
no fetch: it is exactly the hash/extract phase on the unchanged state, with
an empty request trace. -/
theorem download_fresh (r : RepoDef) (env : Env) (fs : CacheFS) (rec : FileRec)
    (h1 : fs.fileAt (r.cache_file ++ ".tar.gz") = some rec)
    (h2 : env.now ≤ rec.mtime + 60) :
    r.download env fs =
      ((extractPhase r env fs).1, [], (extractPhase r env fs).2) := by
  unfold RepoDef.download fetchPhase
  dsimp only
  rw [h1]
  dsimp only
  rw [if_neg (by omega)]

/-- The hash/extract phase when the artifact is present and the extracted
directory does not yet exist, by the shape of the unpacked archive: an empty
top level panics (`next().unwrap()`); a non-directory first entry is an I/O
error; a directory first entry is flattened into the remaining entries and
the phase succeeds when every rename succeeds, and fails with the I/O error
of the first failing rename otherwise — in neither case are the further
top-level entries examined. -/
theorem extractPhase_unpack_cases (r : RepoDef) (env : Env) (fs : CacheFS)
    (rec : FileRec)
    (h1 : fs.fileAt (r.cache_file ++ ".tar.gz") = some rec)
    (h3 : fs.dirAt (r.cache_file ++ "-" ++ env.hashFn rec.bytes) = none) :
    (env.unpackFn rec.bytes = .ok [] →
        extractPhase r env fs =
          (fs.setDir (r.cache_file ++ "-" ++ env.hashFn rec.bytes) [], .panicked))
      ∧ (∀ (n : String) (c : List Nat) (rest : List Entry),
          env.unpackFn rec.bytes = .ok (Entry.file n c :: rest) →
          extractPhase r env fs =
            (fs.setDir (r.cache_file ++ "-" ++ env.hashFn rec.bytes)
              (Entry.file n c :: rest), .err .io))
      ∧ (∀ (X : String) (cs rest top : List Entry),
          env.unpackFn rec.bytes = .ok (Entry.dir X cs :: rest) →
          renameLoop X rest cs = .ok top →
          extractPhase r env fs =
            (fs.setDir (r.cache_file ++ "-" ++ env.hashFn rec.bytes) top,
             .ok (r.cache_file ++ "-" ++ env.hashFn rec.bytes)))
      ∧ (∀ (X : String) (cs rest ptop : List Entry),
          env.unpackFn rec.bytes = .ok (Entry.dir X cs :: rest) →
          renameLoop X rest cs = .error ptop →
          extractPhase r env fs =
            (fs.setDir (r.cache_file ++ "-" ++ env.hashFn rec.bytes) ptop,
             .err .io)) := by
  refine ⟨?_, ?_, ?_, ?_⟩
  · intro hu
    unfold extractPhase
    dsimp only
    rw [h1]
    dsimp only
    rw [h3]
    dsimp only
    rw [hu]
    rfl
  · intro n c rest hu
    unfold extractPhase
    dsimp only
    rw [h1]
    dsimp only
    rw [h3]
    dsimp only
    rw [hu]
    rfl
  · intro X cs rest top hu hrl
    unfold extractPhase
    dsimp only
    rw [h1]
    dsimp only
    rw [h3]
    dsimp only
    rw [hu]
    dsimp only
    unfold flatten
    dsimp only
    rw [hrl]
  · intro X cs rest ptop hu hrl
    unfold extractPhase
    dsimp only
    rw [h1]
    dsimp only
    rw [h3]
    dsimp only
    rw [hu]
    dsimp only
    unfold flatten
    dsimp only
    rw [hrl]

/-- When the wrapper's children are named differently from the wrapper, from
each other, and from every other top-level entry, each rename is a plain
move and the loop moves all children up, in order. -/
theorem renameLoop_disjoint (X : String) :
    ∀ (cs top : List Entry),
      (∀ c ∈ cs, c.name ≠ X) →
      (∀ c ∈ cs, ∀ e ∈ top, c.name ≠ e.name) →
      cs.Pairwise (fun a b => a.name ≠ b.name) →
      renameLoop X top cs = .ok (top ++ cs) := by
  intro cs
  induction cs with
  | nil => intro top _ _ _; simp [renameLoop]
  | cons c cs ih =>
    intro top h1 h2 hp
    rw [List.pairwise_cons] at hp
    have hcX : ¬ ((c.name == X) = true) := by
      simpa using h1 c (by simp)
    have hfind : top.find? (fun e => e.name == c.name) = none := by
      rw [List.find?_eq_none]
      intro e he
      simpa using (h2 c (by simp) e he).symm
    unfold renameLoop renameUp
    rw [if_neg hcX, hfind]
    dsimp only
    rw [ih (top ++ [c]) (fun x hx => h1 x (by simp [hx])) ?hdisj hp.2]
    · simp
    case hdisj =>
      intro x hx e he
      rcases List.mem_append.mp he with he' | he'
      · exact h2 x (by simp [hx]) e he'
      · rw [List.mem_singleton.mp he']
        exact (hp.1 x hx).symm

/-- C4 (amended): the wrong top-level shape is NOT reported as a
violated-precondition error. With a present, fresh artifact and a new
extraction directory: zero top-level entries make materialization panic
(`unwrap` of an empty directory listing) rather than return an error; a
non-directory first entry fails with an I/O-class error; and MORE than one
top-level entry is never detected — when the first entry's children are
named apart from the wrapper and from the other top-level entries, the
first entry is flattened, the remaining entries stay in place, and
materialization SUCCEEDS with an un-normalized tree (colliding names
instead surface as rename I/O errors, still not a precondition check). -/
theorem c4_top_level_shape :
    (∀ (env : Env) (fs : CacheFS) (r : RepoDef) (rec : FileRec),
        fs.fileAt (r.cache_file ++ ".tar.gz") = some rec →
        env.now ≤ rec.mtime + 60 →
        fs.dirAt (r.cache_file ++ "-" ++ env.hashFn rec.bytes) = none →
        env.unpackFn rec.bytes = .ok [] →
        (r.download env fs).2.2 = .panicked)
      ∧ (∀ (env : Env) (fs : CacheFS) (r : RepoDef) (rec : FileRec)
            (n : String) (c : List Nat) (rest : List Entry),
          fs.fileAt (r.cache_file ++ ".tar.gz") = some rec →
          env.now ≤ rec.mtime + 60 →
          fs.dirAt (r.cache_file ++ "-" ++ env.hashFn rec.bytes) = none →
          env.unpackFn rec.bytes = .ok (Entry.file n c :: rest) →
          (r.download env fs).2.2 = .err .io)
      ∧ (∀ (env : Env) (fs : CacheFS) (r : RepoDef) (rec : FileRec)
            (X : String) (cs : List Entry) (e : Entry) (rest : List Entry),
          fs.fileAt (r.cache_file ++ ".tar.gz") = some rec →
          env.now ≤ rec.mtime + 60 →
          fs.dirAt (r.cache_file ++ "-" ++ env.hashFn rec.bytes) = none →
          env.unpackFn rec.bytes = .ok (Entry.dir X cs :: e :: rest) →
          (∀ c ∈ cs, c.name ≠ X) →
          (∀ c ∈ cs, ∀ x ∈ e :: rest, c.name ≠ x.name) →
          cs.Pairwise (fun c1 c2 => c1.name ≠ c2.name) →
          (r.download env fs).2.2 =
              .ok (r.cache_file ++ "-" ++ env.hashFn rec.bytes)
            ∧ (r.download env fs).1.dirAt
                (r.cache_file ++ "-" ++ env.hashFn rec.bytes)
              = some ((e :: rest) ++ cs)) := by
  refine ⟨?_, ?_, ?_⟩
  · intro env fs r rec h1 h2 h3 hu
    rw [download_fresh r env fs rec h1 h2,
      (extractPhase_unpack_cases r env fs rec h1 h3).1 hu]
  · intro env fs r rec n c rest h1 h2 h3 hu
    rw [download_fresh r env fs rec h1 h2,
      (extractPhase_unpack_cases r env fs rec h1 h3).2.1 n c rest hu]
  · intro env fs r rec X cs e rest h1 h2 h3 hu hX hdisj hpw
    rw [download_fresh r env fs rec h1 h2,
      (extractPhase_unpack_cases r env fs rec h1 h3).2.2.1 X cs (e :: rest)
        ((e :: rest) ++ cs) hu (renameLoop_disjoint X cs (e :: rest) hX hdisj hpw)]
    exact ⟨rfl, dirAt_setDir_self fs _ _⟩

/-- The reference of the C4 counterexample. -/
def c4r : RepoDef :=
  { git_provider := .GitHub, user := "u", repo := "r", git_ref := "main" }

/-- The environment of the C4 counterexample: the cached archive unpacks to
TWO top-level directories. -/
def c4env : Env :=
  { now := 100
    net := fun _ _ => .ok { status := 200, etag := none, body := .ok [5] }
    unpackFn := fun _ =>
      .ok [Entry.dir "X" [Entry.file "a" []], Entry.dir "Y" [Entry.file "b" []]]
    hashFn := specHash }

/-- The cache state of the C4 counterexample: a fresh artifact. -/
def c4fs : CacheFS :=
  { files := [("github_u_r_main.tar.gz", { bytes := [5], mtime := 90 })]
    toks := []
    dirs := [] }

/-- C4 counterexample: an archive with two top-level entries does NOT make
materialization fail — `download` returns the extracted path successfully,
with the second wrapper directory `Y` still in place (an un-normalized
tree), contradicting the claimed violated-precondition error. -/
theorem c4_counterexample :
    (c4r.download c4env c4fs).2.2 = .ok ("github_u_r_main-" ++ specHash [5])
      ∧ (c4r.download c4env c4fs).1.dirAt ("github_u_r_main-" ++ specHash [5])
        = some [Entry.dir "Y" [Entry.file "b" []], Entry.file "a" []] :=
  ⟨rfl, rfl⟩

/-- The environment of the C4 witness: the archive unpacks to ZERO top-level
entries. -/
def c4wenv : Env :=
  { now := 100
    net := fun _ _ => .ok { status := 200, etag := none, body := .ok [5] }
    unpackFn := fun _ => .ok []
    hashFn := specHash }

/-- Witness for C4 (amended): zero top-level entries make materialization
panic. -/
theorem c4_top_level_shape_witness : (c4r.download c4wenv c4fs).2.2 = .panicked :=
  c4_top_level_shape.1 c4wenv c4fs c4r { bytes := [5], mtime := 90 }
    rfl (by decide) rfl rfl

/-- The reference of the C5 counterexample. -/
def c5xr : RepoDef :=
  { git_provider := .GitHub, user := "v", repo := "t", git_ref := "main" }

/-- The environment of the C5 counterexample: the archive unpacks to one
wrapper directory `n` whose first child is itself named `n`. -/
def c5xenv : Env :=
  { now := 20
    net := fun _ _ => .ok { status := 200, etag := none, body := .ok [3] }
    unpackFn := fun _ =>
      .ok [Entry.dir "n" [Entry.file "n" [], Entry.file "b" []]]
    hashFn := specHash }

/-- The cache state of the C5 counterexample: a fresh artifact. -/
def c5xfs : CacheFS :=
  { files := [("github_v_t_main.tar.gz", { bytes := [3], mtime := 15 })]
    toks := []
    dirs := [] }

/-- C5 counterexample: an archive with exactly one top-level directory `n`
containing entries `a = "n"` and `b = "b"` does NOT extract to `<outDir>/n`
and `<outDir>/b` — renaming the child `n` up targets the wrapper directory
itself, which is not empty (it still contains that very child), so
`fs::rename` fails and materialization returns an I/O error with the
wrapper intact. -/
theorem c5_counterexample :
    (c5xr.download c5xenv c5xfs).2.2 = .err .io
      ∧ (c5xr.download c5xenv c5xfs).1.dirAt ("github_v_t_main-" ++ specHash [3])
        = some [Entry.dir "n" [Entry.file "n" [], Entry.file "b" []]] :=
  ⟨rfl, rfl⟩

/-- C5 (amended): for every archive whose unpacked content is exactly one
top-level directory `X` containing two files `a` and `b` with distinct
names, NEITHER named like the wrapper itself, extraction followed by
normalization succeeds and yields `a` and `b` at the top of the extracted
directory, with the wrapper `X` removed — never `X/a`. (A child named like
the wrapper instead makes the rename fail with an I/O error; see the
counterexample.) -/
theorem c5_flatten_normalization :
    ∀ (env : Env) (fs : CacheFS) (r : RepoDef) (rec : FileRec)
      (X a b : String) (ca cb : List Nat),
      fs.fileAt (r.cache_file ++ ".tar.gz") = some rec →
      env.now ≤ rec.mtime + 60 →
      fs.dirAt (r.cache_file ++ "-" ++ env.hashFn rec.bytes) = none →
      env.unpackFn rec.bytes =
        .ok [Entry.dir X [Entry.file a ca, Entry.file b cb]] →
      a ≠ b → a ≠ X → b ≠ X →
      (r.download env fs).2.2 = .ok (r.cache_file ++ "-" ++ env.hashFn rec.bytes)
        ∧ (r.download env fs).1.dirAt (r.cache_file ++ "-" ++ env.hashFn rec.bytes)
          = some [Entry.file a ca, Entry.file b cb] := by
  intro env fs r rec X a b ca cb h1 h2 h3 hu hab haX hbX
  have hrl : renameLoop X [] [Entry.file a ca, Entry.file b cb]
      = .ok [Entry.file a ca, Entry.file b cb] := by
    have := renameLoop_disjoint X [Entry.file a ca, Entry.file b cb] []
      (by intro c hc
          rcases List.mem_cons.mp hc with rfl | hc'
          · exact haX
          · rw [List.mem_singleton.mp hc']
            exact hbX)
      (by intro c _ e he; cases he)
      (by simp [Entry.name, hab])
    simpa using this
  rw [download_fresh r env fs rec h1 h2,
    (extractPhase_unpack_cases r env fs rec h1 h3).2.2.1 X
      [Entry.file a ca, Entry.file b cb] [] [Entry.file a ca, Entry.file b cb]
      hu hrl]
  exact ⟨rfl, dirAt_setDir_self fs _ _⟩

/-- The reference of the C5 witness. -/
def c5r : RepoDef :=
  { git_provider := .GitLab, user := "w", repo := "s", git_ref := "v1" }

/-- The environment of the C5 witness: the archive unpacks to one wrapper
directory `X` containing files `a` and `b`. -/
def c5env : Env :=
  { now := 10
    net := fun _ _ => .ok { status := 200, etag := none, body := .ok [9] }
    unpackFn := fun _ =>
      .ok [Entry.dir "X" [Entry.file "a" [1], Entry.file "b" [2]]]
    hashFn := specHash }

/-- The cache state of the C5 witness: a fresh artifact. -/
def c5fs : CacheFS :=
  { files := [("gitlab_w_s_v1.tar.gz", { bytes := [9], mtime := 5 })]
    toks := []
    dirs := [] }

/-- Witness for C5 (amended): the concrete wrapper archive flattens to `a`
and `b` at the top level. -/
theorem c5_flatten_normalization_witness :
    (c5r.download c5env c5fs).2.2 = .ok ("gitlab_w_s_v1-" ++ specHash [9])
      ∧ (c5r.download c5env c5fs).1.dirAt ("gitlab_w_s_v1-" ++ specHash [9])
        = some [Entry.file "a" [1], Entry.file "b" [2]] :=
  c5_flatten_normalization c5env c5fs c5r { bytes := [9], mtime := 5 }
    "X" "a" "b" [1] [2] rfl (by decide) rfl rfl (by decide) (by decide)
    (by decide)

end Thorc
